import Mathlib

/-!
Shallow embedding of `src/xenia/cpu/processor.cc` (the guest-code execution
core of an Xbox 360 emulator).  Machine integers are modelled as `Nat` with
explicit reduction modulo `2 ^ 32` or `2 ^ 64` where C++ wrap-around matters.
Collaborators that live outside this translation unit (the PPC frontend, the
entry table, and the per-module symbol maps) are modelled from the
specification, as noted on each definition.
-/

namespace Xe

/-- Modulus of a 64-bit machine word. -/
def UINT64_MOD : Nat := 18446744073709551616

/-- Modulus of a 32-bit machine word. -/
def UINT32_MOD : Nat := 4294967296

/-- Association-list lookup keyed by guest address. -/
def lookupA {α : Type} : List (Nat × α) → Nat → Option α
  | [], _ => none
  | (k, v) :: rest, a => if k = a then some v else lookupA rest a

/-- Association-list update of the value stored at a key (no-op when absent). -/
def modifyA {α : Type} : List (Nat × α) → Nat → (α → α) → List (Nat × α)
  | [], _, _ => []
  | (k, v) :: rest, a, f =>
    if k = a then (k, f v) :: rest else (k, v) :: modifyA rest a f

/-- Update of the i-th element of a list (no-op when out of range). -/
def listModify {α : Type} : List α → Nat → (α → α) → List α
  | [], _, _ => []
  | x :: rest, 0, f => f x :: rest
  | x :: rest, n+1, f => x :: listModify rest n f

/-- Symbol lifecycle status (`Symbol::Status`): freshly created, declared,
defined, or failed.  `kNew` doubles as the "you must drive this stage"
result of the module declare/define operations, as in the source. -/
inductive SymbolStatus : Type
  | kNew
  | kDeclared
  | kDefined
  | kFailed
deriving DecidableEq, Repr

/-- Per-guest-address symbol metadata (`Symbol` / `Function`). -/
structure Symbol where
  status : SymbolStatus := .kNew
  end_address : Nat := 0
  name : String := ""
deriving DecidableEq, Repr

/-- A loaded module: an address-containment test plus its owned symbol map.
The symbol map itself lives in `module.h`/`module.cc`, outside `src/`; it is
modelled from the spec as an association list keyed by guest address. -/
structure Module where
  contains : Nat → Bool
  symbols : List (Nat × Symbol) := []

/-- `BuiltinModule::ContainsAddress`: true iff the address lies in the
reserved sentinel region `0xFFFFFFF0 …`. -/
def BuiltinModule.ContainsAddress (address : Nat) : Bool :=
  (address &&& 0xFFFFFFF0) == 0xFFFFFFF0

/-- The builtin module as installed by `Setup`: sentinel containment test and
an initially empty symbol map. -/
def builtinModule : Module :=
  { contains := BuiltinModule.ContainsAddress, symbols := [] }

/-- Modelled from the spec: `Module::DeclareFunction` (module.cc is not under
`src/`).  If no symbol exists at the address, create one in its initial state
and report `kNew`; otherwise report the existing symbol's current status
(the EXISTING case of the spec). -/
def Module.DeclareFunction (m : Module) (address : Nat) : SymbolStatus × Module :=
  match lookupA m.symbols address with
  | some s => (s.status, m)
  | none =>
    (.kNew, { m with symbols := m.symbols ++ [(address, { status := .kNew })] })

/-- Modelled from the spec: `Module::DefineFunction` (module.cc is not under
`src/`).  A declared-but-undefined symbol yields `kNew` (the caller drives the
definition); otherwise the symbol's terminal status is reported (`kDefined`
as EXISTING, `kFailed` as FAILED). -/
def Module.DefineFunction (m : Module) (address : Nat) : SymbolStatus :=
  match lookupA m.symbols address with
  | some s => if s.status = .kDeclared then .kNew else s.status
  | none => .kFailed

/-- Entry Table record status (`Entry::Status`). -/
inductive EntryStatus : Type
  | STATUS_NEW
  | STATUS_READY
  | STATUS_FAILED
deriving DecidableEq, Repr

/-- A resolved symbol is identified by (index of its owning module in the
processor's module list, guest address); this models the `Function*`
pointer without host addresses. -/
abbrev FnRef : Type := Nat × Nat

/-- A record in the Entry Table (`Entry`). -/
structure Entry where
  status : EntryStatus := .STATUS_NEW
  end_address : Nat := 0
  function : Option FnRef := none
deriving DecidableEq, Repr

/-- Behaviour of the external PPC frontend (`frontend/ppc_frontend.cc`,
outside this core): whether `DeclareFunction` / `DefineFunction` succeed at a
given address, and the symbol extent the declare scanner computes. -/
structure Frontend where
  declareOk : Nat → Bool
  defineOk : Nat → Bool
  declaredEnd : Nat → Nat

/-- Mutable processor state: the owned module list, the Entry Table, the
builtin-address cursor, and counters of frontend invocations (used to state
"without invoking the frontend" properties).  The initial cursor value is
modelled from the spec: `next_builtin_address_` is declared in `processor.h`
(not under `src/`), starting at the base of the 16-byte sentinel region. -/
structure PState where
  modules : List Module := []
  entries : List (Nat × Entry) := []
  next_builtin_address : Nat := 0xFFFFFFF0
  declareCalls : Nat := 0
  defineCalls : Nat := 0

/-- Module at an index of the processor's module list (total, with an inert
default for out-of-range indices, which the modelled flows never produce). -/
def PState.moduleAt (p : PState) (i : Nat) : Module :=
  (p.modules[i]?).getD { contains := fun _ => false, symbols := [] }

/-- Update the symbol stored at `address` inside module `midx`. -/
def PState.modifySymbol (p : PState) (midx address : Nat) (f : Symbol → Symbol) :
    PState :=
  { p with modules :=
      (listModify p.modules midx
        (fun m => { m with symbols := modifyA m.symbols address f })) }

/-- Symbol referenced by a `FnRef`, if present. -/
def PState.symbolAt (p : PState) (f : FnRef) : Option Symbol :=
  lookupA (p.moduleAt f.1).symbols f.2

/-- Update the Entry Table record at an address. -/
def PState.setEntry (p : PState) (address : Nat) (f : Entry → Entry) : PState :=
  { p with entries := modifyA p.entries address f }

/-- Status of the Entry Table record at an address, if present. -/
def PState.entryStatusAt (p : PState) (address : Nat) : Option EntryStatus :=
  (lookupA p.entries address).map (fun e => e.status)

/-- Status of the symbol at (module `midx`, `address`), if present. -/
def PState.symbolStatusAt (p : PState) (midx address : Nat) : Option SymbolStatus :=
  (lookupA (p.moduleAt midx).symbols address).map (fun s => s.status)

/-- Modelled from the spec: `EntryTable::GetOrCreate` (entry_table.cc is not
under `src/`).  An existing entry reports its current status; a missing entry
is inserted with `STATUS_NEW`, which hands the caller the generation lock. -/
def EntryTable.getOrCreate (p : PState) (address : Nat) : EntryStatus × PState :=
  match lookupA p.entries address with
  | some e => (e.status, p)
  | none =>
    (.STATUS_NEW, { p with entries := p.entries ++ [(address, {})] })

/-- `Processor::QueryFunction`: read-only Entry Table lookup; a missing entry
is an absent result, an existing entry yields its (possibly null) function. -/
def Processor.QueryFunction (p : PState) (address : Nat) : Option FnRef :=
  match lookupA p.entries address with
  | none => none
  | some entry => entry.function

/-- First module (by list order) whose `ContainsAddress` accepts the address,
as the linear scan in `Processor::LookupFunction`. -/
def findContainingModule : List Module → Nat → Option Nat
  | [], _ => none
  | m :: rest, a =>
    if m.contains a then some 0
    else (findContainingModule rest a).map (fun i => i + 1)

/-- `Processor::LookupFunction(Module*, uint32_t)`: atomic create/lookup of
the symbol in the module; on the NEW flag, run the frontend declaration
(which computes the symbol extent), marking the symbol `kDeclared` on
success and `kFailed` (returning absent) on failure. -/
def Processor.LookupFunctionIn (fe : Frontend) (p : PState) (midx address : Nat) :
    Option FnRef × PState :=
  let m := p.moduleAt midx
  let dr := m.DeclareFunction address
  let symbol_status := dr.1
  let p := { p with modules := listModify p.modules midx (fun _ => dr.2) }
  if symbol_status = .kNew then
    let p := { p with declareCalls := p.declareCalls + 1 }
    if fe.declareOk address then
      let p := p.modifySymbol midx address
        (fun s => { s with end_address := fe.declaredEnd address,
                           status := .kDeclared })
      (some (midx, address), p)
    else
      let p := p.modifySymbol midx address (fun s => { s with status := .kFailed })
      (none, p)
  else
    (some (midx, address), p)

/-- `Processor::LookupFunction(uint32_t)`: find the containing module by a
linear scan of the module list, then declare through it; absent when no
module contains the address. -/
def Processor.LookupFunction (fe : Frontend) (p : PState) (address : Nat) :
    Option FnRef × PState :=
  match findContainingModule p.modules address with
  | none => (none, p)
  | some midx => Processor.LookupFunctionIn fe p midx address

/-- `Processor::DemandFunction`: lock the symbol for generation via the
module's define operation; on the NEW flag run the frontend definition,
marking the symbol `kDefined` on success or `kFailed` on failure; report
failure exactly when the resulting status is `kFailed`. -/
def Processor.DemandFunction (fe : Frontend) (p : PState) (f : FnRef) :
    Bool × PState :=
  let symbol_status := (p.moduleAt f.1).DefineFunction f.2
  if symbol_status = .kNew then
    let p := { p with defineCalls := p.defineCalls + 1 }
    if fe.defineOk f.2 then
      let p := p.modifySymbol f.1 f.2 (fun s => { s with status := .kDefined })
      (true, p)
    else
      let p := p.modifySymbol f.1 f.2 (fun s => { s with status := .kFailed })
      (false, p)
  else if symbol_status = .kFailed then
    (false, p)
  else
    (true, p)

/-- Body of the `STATUS_NEW` branch of `Processor::ResolveFunction`: look the
symbol up (an absent lookup returns absent with the entry untouched), demand
it (failure marks the entry `STATUS_FAILED`), then publish the entry as
`STATUS_READY` with the symbol and its end address; the final Entry Table
read models the source's fall-through `return entry->function`. -/
def Processor.ResolveFunctionNew (fe : Frontend) (p : PState) (address : Nat) :
    Option FnRef × PState :=
  match Processor.LookupFunction fe p address with
  | (none, p) => (none, p)
  | (some f, p) =>
    match Processor.DemandFunction fe p f with
    | (false, p) =>
      (none, p.setEntry address (fun e => { e with status := .STATUS_FAILED }))
    | (true, p) =>
      let endA := ((p.symbolAt f).getD {}).end_address
      let p := p.setEntry address
        (fun e => { e with function := some f, end_address := endA,
                           status := .STATUS_READY })
      ((lookupA p.entries address).bind (fun e => e.function), p)

/-- `Processor::ResolveFunction`: get-or-create the Entry; on `STATUS_NEW`
generate through `ResolveFunctionNew`; a ready entry yields its function,
anything else is absent. -/
def Processor.ResolveFunction (fe : Frontend) (p : PState) (address : Nat) :
    Option FnRef × PState :=
  let gc := EntryTable.getOrCreate p address
  let status := gc.1
  let p := gc.2
  if status = .STATUS_NEW then
    Processor.ResolveFunctionNew fe p address
  else if status = .STATUS_READY then
    ((lookupA p.entries address).bind (fun e => e.function), p)
  else
    (none, p)

/-- `Processor::GetModules`: the source constructs a vector pre-sized to the
module count (default-initialized null slots) and then appends every module
pointer, so the result is padding followed by the modules. -/
def Processor.GetModules (modules : List Module) : List (Option Module) :=
  let clone : List (Option Module) := List.replicate modules.length none
  clone ++ modules.map (fun m => some m)

/-- `Processor::RaiseIrql`: atomic exchange on the 32-bit IRQL cell,
returning the previous value.  State passing: (returned value, new cell). -/
def Processor.RaiseIrql (new_value : Nat) (irql : Nat) : Nat × Nat :=
  (irql, new_value % UINT32_MOD)

/-- `Processor::LowerIrql`: atomic exchange on the 32-bit IRQL cell; the
C++ return type is `void`, so the exchanged-out previous value is discarded.
State passing: (returned value — nothing, new cell). -/
def Processor.LowerIrql (old_value : Nat) (_irql : Nat) : Unit × Nat :=
  ((), old_value % UINT32_MOD)

/-- Selected backend kind; only the x64 backend exists in this source. -/
inductive BackendKind : Type
  | x64
deriving DecidableEq, Repr

/-- Configuration and collaborator behaviour consumed by `Processor::Setup`:
the `XENIA_HAS_X64_BACKEND` build flag, the `FLAGS_cpu` option string, and the
outcomes of backend / frontend initialization and stack-walker creation. -/
structure SetupEnv where
  has_x64_backend : Bool
  flags_cpu : String
  backend_init_ok : Bool
  frontend_init_ok : Bool
  stack_walker_ok : Bool

/-- The processor fields `Setup` reads and writes: whether `frontend_` and
`backend_` already hold objects, the module count (the builtin module is
pushed unconditionally), and whether a stack walker was created. -/
structure SetupState where
  frontend_ : Bool := false
  backend_ : Bool := false
  module_count : Nat := 0
  stack_walker_ : Bool := false
deriving DecidableEq, Repr

/-- The `FLAGS_cpu` value selecting the x64 backend. -/
def cpuFlagX64 : String := "x64"

/-- The `FLAGS_cpu` value selecting the first available backend. -/
def cpuFlagAny : String := "any"

/-- Backend-selection block of `Processor::Setup`: an `x64` flag takes the
x64 backend when compiled in; an `any` flag takes the x64 backend when
compiled in and nothing was selected yet; anything else selects nothing. -/
def chooseBackend (has_x64_backend : Bool) (flags_cpu : String) :
    Option BackendKind :=
  let backend : Option BackendKind := none
  let backend :=
    if has_x64_backend && flags_cpu == cpuFlagX64 then some BackendKind.x64
    else backend
  let backend :=
    if flags_cpu == cpuFlagAny then
      (if has_x64_backend && backend.isNone then some BackendKind.x64
       else backend)
    else backend
  backend

/-- `Processor::Setup`: push the builtin module, fail when a frontend or
backend already exists, select a backend from `FLAGS_cpu` (failing when none
can be chosen), initialize backend then frontend (failing when either
fails), install both, and finally fail when stack-walker creation fails. -/
def Processor.Setup (env : SetupEnv) (st : SetupState) : Bool × SetupState :=
  let st := { st with module_count := st.module_count + 1 }
  if st.frontend_ || st.backend_ then (false, st)
  else
    match chooseBackend env.has_x64_backend env.flags_cpu with
    | none => (false, st)
    | some _ =>
      if !env.backend_init_ok then (false, st)
      else if !env.frontend_init_ok then (false, st)
      else
        let st := { st with backend_ := true, frontend_ := true }
        if !env.stack_walker_ok then (false, st)
        else (true, { st with stack_walker_ := true })

/-- An unrecognized `FLAGS_cpu` value. -/
def cpuFlagOther : String := "ppc"

/-- Example configuration: x64 compiled in, unknown `FLAGS_cpu` value, and a
backend whose initialization fails. -/
def exSetupEnv : SetupEnv :=
  { has_x64_backend := true, flags_cpu := cpuFlagOther, backend_init_ok := false,
    frontend_init_ok := true, stack_walker_ok := true }

/-- A guest module whose containment test accepts the single address
`0x82010000`. -/
def exGuestModule : Module := { contains := fun x => x == 0x82010000 }

/-- A frontend whose declare and define both succeed, declaring a 0x40-byte
extent. -/
def exFrontendOk : Frontend :=
  { declareOk := fun _ => true, defineOk := fun _ => true,
    declaredEnd := fun x => (x + 0x40) % UINT32_MOD }

/-- A frontend whose declaration fails on every address. -/
def exFrontendDeclFail : Frontend :=
  { declareOk := fun _ => false, defineOk := fun _ => true,
    declaredEnd := fun x => (x + 0x40) % UINT32_MOD }

/-- A frontend whose definition fails on every address. -/
def exFrontendDefFail : Frontend :=
  { declareOk := fun _ => true, defineOk := fun _ => false,
    declaredEnd := fun x => (x + 0x40) % UINT32_MOD }

/-- A fresh processor state holding the single guest module. -/
def exP0 : PState := { modules := [exGuestModule] }

/-- The state after a resolve whose frontend define failed at `0x82010000`:
its Entry is `STATUS_FAILED`. -/
def exPFailed : PState :=
  (Processor.ResolveFunction exFrontendDefFail exP0 0x82010000).2

/-- Guest PPC register context (`PPCContext`): the 64-bit general-purpose
registers `r0..r31` (indexed by `Nat`) and the link register. -/
structure PPCContext where
  r : Nat → Nat
  lr : Nat

/-- Behaviour of a resolved function's native `Call` (emitted code outside
this core): from the function, the 32-bit return address the adapter passes,
and the entry context, produce success and the context it leaves behind. -/
def CallSem : Type := FnRef → Nat → PPCContext → Bool × PPCContext

/-- `Processor::Execute(ThreadState*, uint32_t)` (scalar form): resolve the
function (failure returns false with the context untouched); pad the guest
stack by `r1 -= 64 + 112` (64-bit wrap-around made explicit); save `lr` and
set it to the sentinel `0xBCBCBCBC`; call the function with the truncated
`lr`; then set `lr` back to the saved value and add `64 + 112` back to
whatever `r1` the callee left. -/
def Processor.Execute (fe : Frontend) (call : CallSem) (p : PState)
    (ctx : PPCContext) (address : Nat) : Bool × PState × PPCContext :=
  match Processor.ResolveFunction fe p address with
  | (none, p) => (false, p, ctx)
  | (some f, p) =>
    let ctx := { ctx with r := (fun i =>
      if i = 1 then (ctx.r 1 + (UINT64_MOD - (64 + 112))) % UINT64_MOD
      else ctx.r i) }
    let previous_lr := ctx.lr
    let ctx := { ctx with lr := 0xBCBCBCBC }
    let cr := call f (ctx.lr % UINT32_MOD) ctx
    let result := cr.1
    let ctx := cr.2
    let ctx := { ctx with lr := previous_lr }
    let ctx := { ctx with r := (fun i =>
      if i = 1 then (ctx.r 1 + (64 + 112)) % UINT64_MOD else ctx.r i) }
    (result, p, ctx)

/-- Argument-marshalling loop of the value-form `Execute`:
`context->r[3 + i] = args[i]`. -/
def writeArgsFrom (ctx : PPCContext) (base : Nat) : List Nat → PPCContext
  | [] => ctx
  | v :: rest =>
    writeArgsFrom { ctx with r := fun i => if i = base then v else ctx.r i }
      (base + 1) rest

/-- `Processor::Execute(ThreadState*, uint32_t, uint64_t[], size_t)` (value
form): marshal the (at most five, per the source's assertion) arguments into
`r3..r7`, run the scalar `Execute`, and return the sentinel `0xDEADBABE` on
failure or the guest's `r3` on success. -/
def Processor.ExecuteValue (fe : Frontend) (call : CallSem) (p : PState)
    (ctx : PPCContext) (address : Nat) (args : List Nat) :
    Nat × PState × PPCContext :=
  let ctx := writeArgsFrom ctx 3 args
  match Processor.Execute fe call p ctx address with
  | (false, p, ctx) => (0xDEADBABE, p, ctx)
  | (true, p, ctx) => (ctx.r 3, p, ctx)

/-- An example guest context: every register holds `0x70000000` and the link
register holds `0x1234`. -/
def exCtx : PPCContext := { r := fun _ => 0x70000000, lr := 0x1234 }

/-- A call behaviour that succeeds and leaves the context unchanged. -/
def exCallId : CallSem := fun _ _ c => (true, c)

/-- A call behaviour that succeeds but leaves `r1 = 5` (an unbalanced callee
that moves the guest stack pointer). -/
def exCallClobberR1 : CallSem :=
  fun _ _ c => (true, { c with r := fun i => if i = 1 then 5 else c.r i })

/-- The name bound to example builtin symbols. -/
def builtinName : String := "b"

/-- `Processor::DefineBuiltin`: allocate the next builtin address (the
32-bit cursor advances by 4 and wraps), declare a symbol at it in the
builtin module (`modules[0]`, installed first by `Setup`), set its end
address to `address + 4` (32-bit) and its name, and mark it `kDeclared`.
The handler/argument binding (`SetupBuiltin`) carries no observable state
for the properties below and is not modelled. -/
def Processor.DefineBuiltin (p : PState) (name : String) : FnRef × PState :=
  let address := p.next_builtin_address
  let p := { p with next_builtin_address :=
    (p.next_builtin_address + 4) % UINT32_MOD }
  let dr := (p.moduleAt 0).DeclareFunction address
  let p := { p with modules := listModify p.modules 0 (fun _ => dr.2) }
  let p := p.modifySymbol 0 address (fun s =>
    { s with end_address := (address + 4) % UINT32_MOD, name := name,
             status := .kDeclared })
  ((0, address), p)

/-- End address of the symbol at (module `midx`, `address`), if present. -/
def PState.symbolEndAt (p : PState) (midx address : Nat) : Option Nat :=
  (lookupA (p.moduleAt midx).symbols address).map (fun s => s.end_address)

/-- Iterated `DefineBuiltin` calls. -/
def defineBuiltinN : PState → Nat → PState
  | p, 0 => p
  | p, n+1 => defineBuiltinN (Processor.DefineBuiltin p builtinName).2 n

/-- Fresh processor state holding just the builtin module, as right after
`Setup` installs it. -/
def pBuiltin0 : PState := { modules := [builtinModule] }

/-- Address returned by the (k+1)-th `DefineBuiltin` call on `pBuiltin0`
(the cursor value after k calls). -/
def builtinAddrAt (k : Nat) : Nat :=
  (defineBuiltinN pBuiltin0 k).next_builtin_address

/-- Claim C3 — `get_modules` is specified to return exactly the live modules
with no padding, but the source pre-sizes the clone vector and then appends:
on a one-module list the result has length 2 and its first slot is a null
pointer.  The spec itself flags this as a bug in the source. -/
theorem c3_get_modules_padding :
    (Processor.GetModules [builtinModule]).length = 2 ∧
      (Processor.GetModules [builtinModule]).head? = some none := by
  constructor <;> rfl

/-- Appending a fresh key to an association list makes it found. -/
theorem lookupA_append_none {α : Type} (l : List (Nat × α)) (a : Nat) (v : α)
    (h : lookupA l a = none) : lookupA (l ++ [(a, v)]) a = some v := by
  induction l with
  | nil => simp [lookupA]
  | cons x rest ih =>
    obtain ⟨k, w⟩ := x
    by_cases hk : k = a
    · simp [lookupA, hk] at h
    · simp only [lookupA, hk, if_false, List.cons_append] at h ⊢
      exact ih h

/-- Updating a key rewrites exactly its stored value. -/
theorem lookupA_modifyA {α : Type} (l : List (Nat × α)) (a : Nat) (f : α → α) :
    lookupA (modifyA l a f) a = (lookupA l a).map f := by
  induction l with
  | nil => simp [lookupA, modifyA]
  | cons x rest ih =>
    obtain ⟨k, w⟩ := x
    by_cases hk : k = a <;> simp [lookupA, modifyA, hk, ih]

/-- Claim C9 (amended) — both IRQL operations perform an atomic exchange on
the 32-bit IRQL cell; `raise_irql` returns the previous value, while
`lower_irql` (whose C++ return type is `void`) discards it; a
`raise x; lower y` pair leaves the cell equal to `y`. -/
theorem c9_irql_exchange (x y c : Nat) :
    (Processor.RaiseIrql x c).1 = c ∧
      (Processor.RaiseIrql x c).2 = x % UINT32_MOD ∧
      (Processor.LowerIrql y (Processor.RaiseIrql x c).2).2 = y % UINT32_MOD :=
  ⟨rfl, rfl, rfl⟩

/-- Claim C9 counterexample — `lower_irql` does not return the cell's
previous value to the caller: its return type in the source is `void`.  In
the embedding, two `lower_irql` calls whose previous cell values differ
(3 versus 4) return the same (unit) value, so the return cannot carry the
previous value, whereas `raise_irql` does return it (3 and 4 here). -/
theorem c9_counterexample :
    (Processor.RaiseIrql 5 3).1 = 3 ∧ (Processor.RaiseIrql 5 4).1 = 4 ∧
      (Processor.LowerIrql 5 3).1 = (Processor.LowerIrql 5 4).1 :=
  ⟨rfl, rfl, rfl⟩

/-- Claim C7 — `setup` backend selection and failure conditions: with the
x64 backend compiled in, `FLAGS_cpu = "x64"` selects the x64 backend;
`FLAGS_cpu = "any"` selects the first available backend (the x64 backend
exactly when it is compiled in); any other value selects no backend; and
`setup` fails when a frontend or backend already exists, when no backend can
be chosen, or when backend or frontend initialization fails. -/
theorem c7_setup_backend_selection (env : SetupEnv) (st : SetupState) :
    (env.has_x64_backend = true →
      chooseBackend env.has_x64_backend cpuFlagX64 = some BackendKind.x64) ∧
    (chooseBackend env.has_x64_backend cpuFlagAny =
      (if env.has_x64_backend then some BackendKind.x64 else none)) ∧
    (env.flags_cpu ≠ cpuFlagX64 → env.flags_cpu ≠ cpuFlagAny →
      chooseBackend env.has_x64_backend env.flags_cpu = none) ∧
    ((st.frontend_ || st.backend_) = true → (Processor.Setup env st).1 = false) ∧
    (chooseBackend env.has_x64_backend env.flags_cpu = none →
      (Processor.Setup env st).1 = false) ∧
    (env.backend_init_ok = false → (Processor.Setup env st).1 = false) ∧
    (env.frontend_init_ok = false → (Processor.Setup env st).1 = false) := by
  refine ⟨?_, ?_, ?_, ?_, ?_, ?_, ?_⟩
  · intro h; rw [h]; decide
  · cases h : env.has_x64_backend <;> simp [h] <;> decide
  · intro hx hy
    have hx' : (env.flags_cpu == cpuFlagX64) = false := beq_eq_false_iff_ne.mpr hx
    have hy' : (env.flags_cpu == cpuFlagAny) = false := beq_eq_false_iff_ne.mpr hy
    simp [chooseBackend, hx', hy']
  · intro h; simp [Processor.Setup, h]
  · intro h
    unfold Processor.Setup
    simp only [h]
    split
    · rfl
    · rfl
  · intro h
    unfold Processor.Setup
    simp only [h]
    split
    · rfl
    · split
      · rfl
      · rfl
  · intro h
    unfold Processor.Setup
    simp only [h]
    split
    · rfl
    · split
      · rfl
      · split
        · rfl
        · rfl

/-- `LookupFunctionIn` never touches the Entry Table. -/
theorem lookupFunctionIn_entries (fe : Frontend) (p : PState) (midx a : Nat) :
    (Processor.LookupFunctionIn fe p midx a).2.entries = p.entries := by
  simp only [Processor.LookupFunctionIn]
  split
  · split <;> rfl
  · rfl

/-- `LookupFunction` never touches the Entry Table. -/
theorem lookupFunction_entries (fe : Frontend) (p : PState) (a : Nat) :
    (Processor.LookupFunction fe p a).2.entries = p.entries := by
  unfold Processor.LookupFunction
  cases h : findContainingModule p.modules a with
  | none => rfl
  | some midx => exact lookupFunctionIn_entries fe p midx a

/-- `DemandFunction` never touches the Entry Table. -/
theorem demandFunction_entries (fe : Frontend) (p : PState) (f : FnRef) :
    (Processor.DemandFunction fe p f).2.entries = p.entries := by
  simp only [Processor.DemandFunction]
  split
  · split <;> rfl
  · split <;> rfl

/-- When the `STATUS_NEW` branch of resolve returns a symbol, the Entry at
that address has been published as `STATUS_READY` referencing it. -/
theorem resolveNew_some_ready (fe : Frontend) (p1 : PState) (a : Nat)
    (f : FnRef) (p' : PState) (e1 : Entry)
    (he1 : lookupA p1.entries a = some e1)
    (h : Processor.ResolveFunctionNew fe p1 a = (some f, p')) :
    ∃ e : Entry, lookupA p'.entries a = some e ∧ e.status = .STATUS_READY ∧
      e.function = some f := by
  unfold Processor.ResolveFunctionNew at h
  split at h
  next p2 heq => simp at h
  next f0 p2 heq =>
    split at h
    next p3 heq2 => simp at h
    next p3 heq2 =>
      have h2 : p2.entries = p1.entries := by
        have hx := lookupFunction_entries fe p1 a
        rw [heq] at hx
        exact hx
      have h3 : p3.entries = p2.entries := by
        have hx := demandFunction_entries fe p2 f0
        rw [heq2] at hx
        exact hx
      have hl3 : lookupA p3.entries a = some e1 := by rw [h3, h2]; exact he1
      simp only [PState.setEntry] at h
      rw [lookupA_modifyA, hl3] at h
      simp only [Option.map_some', Option.some_bind] at h
      rw [Prod.mk.injEq] at h
      obtain ⟨h1, h4⟩ := h
      obtain rfl : f0 = f := Option.some.inj h1
      subst h4
      refine ⟨⟨.STATUS_READY, ((p3.symbolAt f0).getD {}).end_address, some f0⟩,
        ?_, rfl, rfl⟩
      show lookupA (modifyA p3.entries a _) a = _
      rw [lookupA_modifyA, hl3]
      rfl

/-- When resolve returns a symbol, the Entry at that address is
`STATUS_READY` and references that symbol in the resulting state. -/
theorem resolve_some_ready (fe : Frontend) (p : PState) (a : Nat) (f : FnRef)
    (p' : PState) (h : Processor.ResolveFunction fe p a = (some f, p')) :
    ∃ e : Entry, lookupA p'.entries a = some e ∧ e.status = .STATUS_READY ∧
      e.function = some f := by
  unfold Processor.ResolveFunction EntryTable.getOrCreate at h
  cases hg : lookupA p.entries a with
  | none =>
    simp only [hg] at h
    rw [if_pos trivial] at h
    have hbase : lookupA (p.entries ++ [(a, ({} : Entry))]) a = some {} :=
      lookupA_append_none p.entries a {} hg
    exact resolveNew_some_ready fe _ a f p' {} hbase h
  | some e0 =>
    simp only [hg] at h
    by_cases hn : e0.status = .STATUS_NEW
    · rw [if_pos hn] at h
      exact resolveNew_some_ready fe p a f p' e0 hg h
    · rw [if_neg hn] at h
      by_cases hr : e0.status = .STATUS_READY
      · rw [if_pos hr] at h
        obtain ⟨h1, h2⟩ := Prod.ext_iff.mp h
        have h2' : p = p' := h2
        have h1' : e0.function = some f := h1
        exact ⟨e0, h2' ▸ hg, hr, h1'⟩
      · rw [if_neg hr] at h
        simp at h

/-- A `STATUS_READY` entry short-circuits resolve: the entry's function is
returned and the state (Entry Table, modules, frontend counters) is
untouched. -/
theorem resolve_ready_entry (fe : Frontend) (p : PState) (a : Nat) (e : Entry)
    (f : FnRef) (he : lookupA p.entries a = some e)
    (hst : e.status = .STATUS_READY) (hfn : e.function = some f) :
    Processor.ResolveFunction fe p a = (some f, p) := by
  unfold Processor.ResolveFunction EntryTable.getOrCreate
  simp [he, hst, hfn]

/-- Claim C5 — once `resolve_function(a)` has returned a symbol `f` (the
entry is `STATUS_READY`), a subsequent `resolve_function(a)` returns the same
symbol with the state completely unchanged (in particular the Entry Table is
not mutated and the frontend-invocation counters do not move), and
`query_function(a)` returns the same symbol. -/
theorem c5_resolve_idempotent_once_ready (fe : Frontend) (p : PState) (a : Nat)
    (f : FnRef) (p' : PState)
    (h : Processor.ResolveFunction fe p a = (some f, p')) :
    Processor.ResolveFunction fe p' a = (some f, p') ∧
      Processor.QueryFunction p' a = some f := by
  obtain ⟨e, he, hst, hfn⟩ := resolve_some_ready fe p a f p' h
  refine ⟨resolve_ready_entry fe p' a e f he hst hfn, ?_⟩
  simp [Processor.QueryFunction, he, hfn]

/-- Witness for claim C5: a successful resolve at `0x82010000`, then the
repeated resolve and the query both return the same symbol unchanged. -/
theorem c5_resolve_idempotent_once_ready_witness :
    Processor.ResolveFunction exFrontendOk
        (Processor.ResolveFunction exFrontendOk exP0 0x82010000).2 0x82010000
      = (some (0, 0x82010000),
         (Processor.ResolveFunction exFrontendOk exP0 0x82010000).2) ∧
    Processor.QueryFunction
        (Processor.ResolveFunction exFrontendOk exP0 0x82010000).2 0x82010000
      = some (0, 0x82010000) :=
  c5_resolve_idempotent_once_ready exFrontendOk exP0 0x82010000 (0, 0x82010000)
    (Processor.ResolveFunction exFrontendOk exP0 0x82010000).2 rfl

/-- Claim C4 — a `STATUS_FAILED` Entry is sticky: a resolve of that address
returns absent and leaves the whole state unchanged (the Entry stays
`STATUS_FAILED` for its lifetime, the Entry Table is not mutated, and the
frontend counters do not move, i.e. the frontend is not invoked again). -/
theorem c4_failed_entry_sticky (fe : Frontend) (p : PState) (a : Nat)
    (e : Entry) (h1 : lookupA p.entries a = some e)
    (h2 : e.status = .STATUS_FAILED) :
    Processor.ResolveFunction fe p a = (none, p) := by
  unfold Processor.ResolveFunction EntryTable.getOrCreate
  simp [h1, h2]

/-- Witness for claim C4: after a frontend define failure at `0x82010000`
(state `exPFailed`, whose Entry is `STATUS_FAILED`), a second resolve returns
absent with the state unchanged. -/
theorem c4_failed_entry_sticky_witness :
    Processor.ResolveFunction exFrontendDefFail exPFailed 0x82010000
      = (none, exPFailed) :=
  c4_failed_entry_sticky exFrontendDefFail exPFailed 0x82010000
    { status := .STATUS_FAILED, end_address := 0, function := none }
    (by decide) rfl

/-- Claim C1 counterexample — with a containing module present and a
frontend whose declaration fails, `resolve_function(0x82010000)` returns
absent but the Entry's status is left `STATUS_NEW`, not `STATUS_FAILED`:
the `!function` early return in `ResolveFunction` writes no entry status. -/
theorem c1_counterexample :
    (Processor.ResolveFunction exFrontendDeclFail exP0 0x82010000).1 = none ∧
      (Processor.ResolveFunction exFrontendDeclFail exP0
          0x82010000).2.entryStatusAt 0x82010000 = some .STATUS_NEW ∧
      (Processor.ResolveFunction exFrontendDeclFail exP0
          0x82010000).2.entryStatusAt 0x82010000 ≠ some .STATUS_FAILED := by
  decide

/-- Claim C1 (amended) — in `resolve_function`, when the entry is NEW, the
containing module is found, and the frontend declaration fails, the call
returns absent, the symbol is marked `kFailed`, but the entry's status is
left `STATUS_NEW` (only a demand/define failure marks the entry
`STATUS_FAILED`). -/
theorem c1_amended_decl_failure (fe : Frontend) (m : Module)
    (entries0 : List (Nat × Entry)) (a d1 d2 : Nat)
    (hc : m.contains a = true) (hs : lookupA m.symbols a = none)
    (he : lookupA entries0 a = none) (hd : fe.declareOk a = false) :
    (Processor.ResolveFunction fe
        { modules := [m], entries := entries0, declareCalls := d1,
          defineCalls := d2 } a).1 = none ∧
      (Processor.ResolveFunction fe
        { modules := [m], entries := entries0, declareCalls := d1,
          defineCalls := d2 } a).2.entryStatusAt a = some .STATUS_NEW ∧
      (Processor.ResolveFunction fe
        { modules := [m], entries := entries0, declareCalls := d1,
          defineCalls := d2 } a).2.symbolStatusAt 0 a = some .kFailed := by
  have happ := lookupA_append_none entries0 a ({} : Entry) he
  have hsym := lookupA_append_none m.symbols a ({ status := .kNew } : Symbol) hs
  simp [Processor.ResolveFunction, EntryTable.getOrCreate,
    Processor.ResolveFunctionNew, Processor.LookupFunction,
    findContainingModule, Processor.LookupFunctionIn, Module.DeclareFunction,
    PState.moduleAt, PState.modifySymbol, PState.setEntry,
    PState.entryStatusAt, PState.symbolStatusAt, listModify,
    he, hc, hs, hd, happ, hsym, lookupA_modifyA]

/-- Witness for the amended claim C1 at a concrete failing frontend. -/
theorem c1_amended_decl_failure_witness :
    (Processor.ResolveFunction exFrontendDeclFail
        { modules := [exGuestModule], entries := [], declareCalls := 0,
          defineCalls := 0 } 0x82010000).1 = none ∧
      (Processor.ResolveFunction exFrontendDeclFail
        { modules := [exGuestModule], entries := [], declareCalls := 0,
          defineCalls := 0 } 0x82010000).2.entryStatusAt 0x82010000
        = some .STATUS_NEW ∧
      (Processor.ResolveFunction exFrontendDeclFail
        { modules := [exGuestModule], entries := [], declareCalls := 0,
          defineCalls := 0 } 0x82010000).2.symbolStatusAt 0 0x82010000
        = some .kFailed :=
  c1_amended_decl_failure exFrontendDeclFail exGuestModule [] 0x82010000 0 0
    (by decide) rfl rfl rfl

/-- Witness for claim C7 at a concrete configuration. -/
theorem c7_setup_backend_selection_witness :
    chooseBackend exSetupEnv.has_x64_backend cpuFlagX64 = some BackendKind.x64 ∧
      chooseBackend exSetupEnv.has_x64_backend exSetupEnv.flags_cpu = none ∧
      (Processor.Setup exSetupEnv {}).1 = false :=
  ⟨(c7_setup_backend_selection exSetupEnv {}).1 rfl,
   (c7_setup_backend_selection exSetupEnv {}).2.2.1 (by decide) (by decide),
   (c7_setup_backend_selection exSetupEnv {}).2.2.2.2.2.1 rfl⟩

/-- Marshalling leaves registers below the base index untouched. -/
theorem writeArgsFrom_r_lt (l : List Nat) :
    ∀ (ctx : PPCContext) (base i : Nat), i < base →
      (writeArgsFrom ctx base l).r i = ctx.r i := by
  induction l with
  | nil => intro ctx base i _; rfl
  | cons v rest ih =>
    intro ctx base i hlt
    have hne : ¬ (i = base) := by omega
    have hx := ih { ctx with r := (fun j => if j = base then v else ctx.r j) }
      (base + 1) i (by omega)
    simpa [writeArgsFrom, hne] using hx

/-- Marshalling preserves the link register. -/
theorem writeArgsFrom_lr (l : List Nat) :
    ∀ (ctx : PPCContext) (base : Nat), (writeArgsFrom ctx base l).lr = ctx.lr := by
  induction l with
  | nil => intro ctx base; rfl
  | cons v rest ih => intro ctx base; exact ih _ (base + 1)

/-- Marshalling writes argument `i` into register `base + i`. -/
theorem writeArgsFrom_r_get (l : List Nat) :
    ∀ (ctx : PPCContext) (base i : Nat) (h : i < l.length),
      (writeArgsFrom ctx base l).r (base + i) = l.get ⟨i, h⟩ := by
  induction l with
  | nil => intro ctx base i h; exact absurd h (by simp)
  | cons v rest ih =>
    intro ctx base i h
    cases i with
    | zero =>
      have hx := writeArgsFrom_r_lt rest
        { ctx with r := (fun j => if j = base then v else ctx.r j) }
        (base + 1) base (by omega)
      simpa [writeArgsFrom] using hx
    | succ i =>
      have hx := ih { ctx with r := (fun j => if j = base then v else ctx.r j) }
        (base + 1) i (by simpa using Nat.lt_of_succ_lt_succ h)
      have harith : base + (i + 1) = (base + 1) + i := by omega
      rw [writeArgsFrom, harith]
      exact hx

/-- On the call path, registers `r3..r7` pass through `Execute` untouched by
the adapter itself: only `r1` and `lr` are adjusted around the call. -/
theorem execute_r_high_preserved (fe : Frontend) (call : CallSem) (p : PState)
    (ctx : PPCContext) (a i : Nat) (hge : 3 ≤ i) (hle : i ≤ 7)
    (hcall : ∀ g l c j, 3 ≤ j → j ≤ 7 → ((call g l c).2).r j = c.r j) :
    ((Processor.Execute fe call p ctx a).2.2).r i = ctx.r i := by
  unfold Processor.Execute
  rcases hres : Processor.ResolveFunction fe p a with ⟨ofn, p2⟩
  cases ofn with
  | none => rfl
  | some f =>
    dsimp only
    have hne : ¬ (i = 1) := by omega
    rw [hcall _ _ _ i hge hle]
    simp [hne]

/-- Claim C2 (amended) — after `execute` (scalar or value form) returns,
`lr` equals its pre-call value on every exit path; on the resolution-failure
path the whole context is unchanged; and `r1` equals its pre-call value
provided the invoked function itself preserves `r1`: the adapter adjusts
`r1` by subtracting and re-adding `64 + 112` rather than saving and
restoring it, so a callee's net change to `r1` persists (see the
counterexample), while a callee's change to `lr` is discarded. -/
theorem c2_execute_frame_effect (fe : Frontend) (call : CallSem) (p : PState)
    (ctx : PPCContext) (a : Nat) (args : List Nat) :
    ((Processor.Execute fe call p ctx a).2.2).lr = ctx.lr ∧
    ((Processor.ExecuteValue fe call p ctx a args).2.2).lr = ctx.lr ∧
    ((Processor.ResolveFunction fe p a).1 = none →
      (Processor.Execute fe call p ctx a).2.2 = ctx) ∧
    ((∀ g l c, ((call g l c).2).r 1 = c.r 1) → ctx.r 1 < UINT64_MOD →
      ((Processor.Execute fe call p ctx a).2.2).r 1 = ctx.r 1) ∧
    ((∀ g l c, ((call g l c).2).r 1 = c.r 1) → ctx.r 1 < UINT64_MOD →
      ((Processor.ExecuteValue fe call p ctx a args).2.2).r 1 = ctx.r 1) := by
  have hlr : ∀ c : PPCContext, ((Processor.Execute fe call p c a).2.2).lr = c.lr := by
    intro c
    unfold Processor.Execute
    rcases hres : Processor.ResolveFunction fe p a with ⟨ofn, p2⟩
    cases ofn <;> rfl
  have hr1 : ∀ c : PPCContext, (∀ g l cc, ((call g l cc).2).r 1 = cc.r 1) →
      c.r 1 < UINT64_MOD →
      ((Processor.Execute fe call p c a).2.2).r 1 = c.r 1 := by
    intro c hp h64
    unfold Processor.Execute
    rcases hres : Processor.ResolveFunction fe p a with ⟨ofn, p2⟩
    cases ofn with
    | none => rfl
    | some f =>
      dsimp only
      rw [hp]
      simp only [UINT64_MOD] at h64 ⊢
      simp
      omega
  have hvallr : ((Processor.ExecuteValue fe call p ctx a args).2.2).lr = ctx.lr := by
    unfold Processor.ExecuteValue
    dsimp only
    rcases hx : Processor.Execute fe call p (writeArgsFrom ctx 3 args) a
      with ⟨b, p2, c2⟩
    have hc2 : c2.lr = ctx.lr := by
      have h1 := hlr (writeArgsFrom ctx 3 args)
      rw [hx] at h1
      rw [writeArgsFrom_lr] at h1
      exact h1
    cases b <;> exact hc2
  refine ⟨hlr ctx, hvallr, ?_, hr1 ctx, ?_⟩
  · intro hnone
    unfold Processor.Execute
    rcases hres : Processor.ResolveFunction fe p a with ⟨ofn, p2⟩
    rw [hres] at hnone
    cases ofn with
    | none => rfl
    | some f => exact absurd hnone (by simp)
  · intro hp h64
    unfold Processor.ExecuteValue
    dsimp only
    rcases hx : Processor.Execute fe call p (writeArgsFrom ctx 3 args) a
      with ⟨b, p2, c2⟩
    have hw1 : (writeArgsFrom ctx 3 args).r 1 = ctx.r 1 :=
      writeArgsFrom_r_lt args ctx 3 1 (by omega)
    have hc2 : c2.r 1 = ctx.r 1 := by
      have h1 := hr1 (writeArgsFrom ctx 3 args) hp (by rw [hw1]; exact h64)
      rw [hx] at h1
      rw [hw1] at h1
      exact h1
    cases b <;> exact hc2

/-- Witness for the amended claim C2: with an identity callee, `lr` and `r1`
are restored across a successful `execute`. -/
theorem c2_execute_frame_effect_witness :
    ((Processor.Execute exFrontendOk exCallId exP0 exCtx 0x82010000).2.2).lr
      = exCtx.lr ∧
    ((Processor.Execute exFrontendOk exCallId exP0 exCtx 0x82010000).2.2).r 1
      = exCtx.r 1 :=
  ⟨(c2_execute_frame_effect exFrontendOk exCallId exP0 exCtx 0x82010000 []).1,
   (c2_execute_frame_effect exFrontendOk exCallId exP0 exCtx
      0x82010000 []).2.2.2.1 (fun _ _ _ => rfl) (by decide)⟩

/-- Claim C2 counterexample — the claim fails when the invoked function
itself modifies `r1`: with a callee that leaves `r1 = 5`, a successful
`execute` returns with `r1 = 5 + 176 = 181`, not the pre-call value
`0x70000000`; the adapter re-adds its pad instead of restoring `r1`. -/
theorem c2_counterexample :
    ((Processor.Execute exFrontendOk exCallClobberR1 exP0 exCtx
        0x82010000).2.2).r 1 = 181 ∧
      exCtx.r 1 = 0x70000000 ∧ (181 : Nat) ≠ 0x70000000 := by
  decide

/-- Claim C6 — the value form of `execute` writes its up-to-five 64-bit
arguments into guest registers `r3..r7` (argument `i` into `r(3+i)`), then
runs the scalar `execute`; if that fails it returns the sentinel
`0xDEADBABE`, and on success it returns the guest context's `r3`. -/
theorem c6_execute_value (fe : Frontend) (call : CallSem) (p : PState)
    (ctx : PPCContext) (a : Nat) (args : List Nat)
    (_h5 : args.length ≤ 5) :
    (∀ i (h : i < args.length),
      (writeArgsFrom ctx 3 args).r (3 + i) = args.get ⟨i, h⟩) ∧
    ((Processor.Execute fe call p (writeArgsFrom ctx 3 args) a).1 = false →
      (Processor.ExecuteValue fe call p ctx a args).1 = 0xDEADBABE) ∧
    ((Processor.Execute fe call p (writeArgsFrom ctx 3 args) a).1 = true →
      (Processor.ExecuteValue fe call p ctx a args).1 =
        ((Processor.Execute fe call p (writeArgsFrom ctx 3 args) a).2.2).r 3) := by
  refine ⟨fun i h => writeArgsFrom_r_get args ctx 3 i h, ?_, ?_⟩
  · intro hfail
    unfold Processor.ExecuteValue
    dsimp only
    rcases hx : Processor.Execute fe call p (writeArgsFrom ctx 3 args) a
      with ⟨b, p2, c2⟩
    rw [hx] at hfail
    have hb : b = false := hfail
    subst hb
    rfl
  · intro hok
    unfold Processor.ExecuteValue
    dsimp only
    rcases hx : Processor.Execute fe call p (writeArgsFrom ctx 3 args) a
      with ⟨b, p2, c2⟩
    rw [hx] at hok
    have hb : b = true := hok
    subst hb
    rfl

/-- Witness for claim C6: with two concrete arguments, `r4` receives the
second one, and with a failing resolution the value form yields the
sentinel. -/
theorem c6_execute_value_witness :
    (writeArgsFrom exCtx 3 [11, 22]).r (3 + 1) = 22 ∧
      (Processor.ExecuteValue exFrontendDeclFail exCallId exP0 exCtx
        0x82010000 [11, 22]).1 = 0xDEADBABE := by
  constructor
  · have hx := (c6_execute_value exFrontendDeclFail exCallId exP0 exCtx
      0x82010000 [11, 22] (by decide)).1 1 (by decide)
    simpa using hx
  · exact (c6_execute_value exFrontendDeclFail exCallId exP0 exCtx
      0x82010000 [11, 22] (by decide)).2.1 (by decide)

/-- Claim C10 — the value form of `execute` overwrites `r3..r(2+n)` with the
marshalled arguments before resolution is attempted and never restores them:
provided the callee itself does not touch the argument registers, they hold
the marshalled values on every exit (in particular after a failure returning
the sentinel `0xDEADBABE`, when the pre-call contents are lost), and a
resolution failure returns the sentinel. -/
theorem c10_args_not_restored (fe : Frontend) (call : CallSem) (p : PState)
    (ctx : PPCContext) (a : Nat) (args : List Nat)
    (h5 : args.length ≤ 5)
    (hcall : ∀ g l c j, 3 ≤ j → j ≤ 7 → ((call g l c).2).r j = c.r j) :
    ((Processor.ResolveFunction fe p a).1 = none →
      (Processor.ExecuteValue fe call p ctx a args).1 = 0xDEADBABE) ∧
    (∀ i (h : i < args.length),
      ((Processor.ExecuteValue fe call p ctx a args).2.2).r (3 + i)
        = args.get ⟨i, h⟩) := by
  constructor
  · intro hnone
    unfold Processor.ExecuteValue
    dsimp only
    rcases hx : Processor.Execute fe call p (writeArgsFrom ctx 3 args) a
      with ⟨b, p2, c2⟩
    have hb : b = false := by
      unfold Processor.Execute at hx
      rcases hres : Processor.ResolveFunction fe p a with ⟨ofn, p2x⟩
      rw [hres] at hnone hx
      cases ofn with
      | none => exact (Prod.ext_iff.mp hx).1.symm
      | some f => exact absurd hnone (by simp)
    subst hb
    rfl
  · intro i h
    have hpres := execute_r_high_preserved fe call p (writeArgsFrom ctx 3 args)
      a (3 + i) (by omega) (by omega) hcall
    have hget := writeArgsFrom_r_get args ctx 3 i h
    unfold Processor.ExecuteValue
    dsimp only
    rcases hx : Processor.Execute fe call p (writeArgsFrom ctx 3 args) a
      with ⟨b, p2, c2⟩
    rw [hx] at hpres
    cases b with
    | false => exact hpres.trans hget
    | true => exact hpres.trans hget

/-- Witness for claim C10: with a failing resolution and an inert callee,
the value form returns the sentinel and `r3` still holds the first
marshalled argument. -/
theorem c10_args_not_restored_witness :
    (Processor.ExecuteValue exFrontendDeclFail exCallId exP0 exCtx
        0x82010000 [7, 9]).1 = 0xDEADBABE ∧
      ((Processor.ExecuteValue exFrontendDeclFail exCallId exP0 exCtx
        0x82010000 [7, 9]).2.2).r (3 + 0) = 7 := by
  constructor
  · exact (c10_args_not_restored exFrontendDeclFail exCallId exP0 exCtx
      0x82010000 [7, 9] (by decide) (fun _ _ _ _ _ _ => rfl)).1 (by decide)
  · have hx := (c10_args_not_restored exFrontendDeclFail exCallId exP0 exCtx
      0x82010000 [7, 9] (by decide) (fun _ _ _ _ _ _ => rfl)).2 0 (by decide)
    simpa using hx

/-- One `DefineBuiltin` call preserves 4-alignment of the builtin cursor. -/
theorem defineBuiltin_next_aligned (p : PState) (s : String)
    (h : p.next_builtin_address % 4 = 0) :
    ((Processor.DefineBuiltin p s).2).next_builtin_address % 4 = 0 := by
  show ((p.next_builtin_address + 4) % UINT32_MOD) % 4 = 0
  simp only [UINT32_MOD]
  omega

/-- The builtin cursor stays 4-aligned through any number of
`DefineBuiltin` calls. -/
theorem defineBuiltinN_aligned : ∀ (n : Nat) (p : PState),
    p.next_builtin_address % 4 = 0 →
    (defineBuiltinN p n).next_builtin_address % 4 = 0
  | 0, _, h => h
  | n+1, p, h =>
    defineBuiltinN_aligned n _ (defineBuiltin_next_aligned p builtinName h)

/-- Claim C8 (amended) — every address allocated by `define_builtin` is
4-byte aligned; the allocations that stay inside the 16-byte sentinel region
(the first four, starting at the cursor base `0xFFFFFFF0`) are pairwise
distinct and satisfy the Builtin Module's `contains_address`; and each such
symbol gets `end_address = address + 4` (32-bit wrap-around: the fourth
symbol's end address wraps to 0) and status `kDeclared`.  The fifth
allocation wraps out of the region (see the counterexample). -/
theorem c8_builtin_addresses (n : Nat) :
    builtinAddrAt n % 4 = 0 ∧
    (builtinAddrAt 0 = 0xFFFFFFF0 ∧ builtinAddrAt 1 = 0xFFFFFFF4 ∧
      builtinAddrAt 2 = 0xFFFFFFF8 ∧ builtinAddrAt 3 = 0xFFFFFFFC) ∧
    (builtinAddrAt 0 ≠ builtinAddrAt 1 ∧ builtinAddrAt 0 ≠ builtinAddrAt 2 ∧
      builtinAddrAt 0 ≠ builtinAddrAt 3 ∧ builtinAddrAt 1 ≠ builtinAddrAt 2 ∧
      builtinAddrAt 1 ≠ builtinAddrAt 3 ∧ builtinAddrAt 2 ≠ builtinAddrAt 3) ∧
    (BuiltinModule.ContainsAddress (builtinAddrAt 0) = true ∧
      BuiltinModule.ContainsAddress (builtinAddrAt 1) = true ∧
      BuiltinModule.ContainsAddress (builtinAddrAt 2) = true ∧
      BuiltinModule.ContainsAddress (builtinAddrAt 3) = true) ∧
    ((defineBuiltinN pBuiltin0 4).symbolStatusAt 0 (builtinAddrAt 0)
        = some .kDeclared ∧
      (defineBuiltinN pBuiltin0 4).symbolStatusAt 0 (builtinAddrAt 3)
        = some .kDeclared ∧
      (defineBuiltinN pBuiltin0 4).symbolEndAt 0 (builtinAddrAt 0)
        = some 0xFFFFFFF4 ∧
      (defineBuiltinN pBuiltin0 4).symbolEndAt 0 (builtinAddrAt 2)
        = some 0xFFFFFFFC ∧
      (defineBuiltinN pBuiltin0 4).symbolEndAt 0 (builtinAddrAt 3)
        = some 0) := by
  refine ⟨defineBuiltinN_aligned n pBuiltin0 (by decide), ?_⟩
  decide

/-- Claim C8 counterexample — the claim fails at the fifth allocation: the
32-bit builtin cursor wraps out of the sentinel region, yielding address 0,
which the Builtin Module's `contains_address` rejects. -/
theorem c8_counterexample :
    builtinAddrAt 4 = 0 ∧
      BuiltinModule.ContainsAddress (builtinAddrAt 4) = false := by
  decide

end Xe
